import Mathlib

/-
Shallow embedding of ngi_pipeline/engines/sarek/models/workflow.py (Python 2).

Modelling choices:
- Python values that can appear as keyword-argument values are modelled by
  the inductive type PyVal (string, int, bool, list of strings), with Python
  truthiness as pyTruthy.
- A Python dict (keyword arguments, the sarek_args mapping) is modelled as an
  association list with first-occurrence lookup; iteration order is list
  order.  Python keyword arguments can never contain a duplicate key, so the
  association lists arising from the code have distinct keys; theorems below
  quantify over all association lists, which is a superset.
- string.Template is modelled by a list of template items (literal text or a
  named placeholder); the source only ever builds templates of this shape,
  via the literal "${nf_path} run ${sarek_step_path}" and _append_argument
  which appends a literal flag followed by a placeholder.  substitute resolves
  placeholders against a mapping and fails (Python KeyError) on a missing key.
- os.path.join is modelled by pjoin (posixpath.join for two components).
- os.listdir is effectful; report_files receives the directory listing of the
  MarkDuplicates directory as an explicit argument.
- raising is modelled by Except; NotImplementedError and ParserException
  propagate through the callers as in the source.
- in Python 2, filter over a list returns a list and list.pop() removes the
  last element; report_files and valid_tools are modelled accordingly.
-/

deriving instance DecidableEq for Except

namespace SarekWorkflow

/-- PyVal models the Python values the module passes around as argument
values: strings, ints, bools and lists of strings. -/
inductive PyVal where
  | str (s : String)
  | int (n : Int)
  | bool (b : Bool)
  | list (xs : List String)
  deriving DecidableEq

/-- pyTruthy is Python truthiness on PyVal: empty string, zero, False and the
empty list are falsy, everything else is truthy. -/
def pyTruthy : PyVal → Bool
  | PyVal.str s => !(s = "")
  | PyVal.int n => !(n = 0)
  | PyVal.bool b => b
  | PyVal.list xs => !xs.isEmpty

/-- truthyOpt extends pyTruthy to Option, treating Python None (a missing
key, as returned by dict.get) as falsy. -/
def truthyOpt : Option PyVal → Bool
  | none => false
  | some v => pyTruthy v

/-- sq is the single-quote character as a string (used in Python repr text). -/
def sq : String := String.singleton (Char.ofNat 39)

/-- pyToStr models Python str() on PyVal, as applied by Template.substitute
(which formats every substituted value with %s). -/
def pyToStr : PyVal → String
  | PyVal.str s => s
  | PyVal.int n => toString n
  | PyVal.bool b => if b then "True" else "False"
  | PyVal.list xs => "[" ++ String.intercalate ", " (xs.map (fun x => sq ++ x ++ sq)) ++ "]"

/-- dictGet models Python dict lookup (first occurrence wins in this
association-list model). -/
def dictGet : List (String × PyVal) → String → Option PyVal
  | [], _ => none
  | kv :: rest, k => if kv.1 = k then some kv.2 else dictGet rest k

/-- dictGetD models Python dict.get with a default value. -/
def dictGetD (l : List (String × PyVal)) (k : String) (d : PyVal) : PyVal :=
  (dictGet l k).getD d

/-- dictSet models Python dict item assignment: replace the value at the first
occurrence of the key, or append the pair if the key is absent. -/
def dictSet : List (String × PyVal) → String → PyVal → List (String × PyVal)
  | [], k, v => [(k, v)]
  | kv :: rest, k, v => if kv.1 = k then (k, v) :: rest else kv :: dictSet rest k v

/-- dictKeys models Python dict.keys() (iteration order is list order). -/
def dictKeys (l : List (String × PyVal)) : List String :=
  l.map Prod.fst

/-- dictErase removes every entry with the given key (on the duplicate-free
dicts Python produces, this is removal of the key). -/
def dictErase (l : List (String × PyVal)) (k : String) : List (String × PyVal) :=
  l.filter (fun kv => !(kv.1 = k))

/-- pyStartsWith models Python str.startswith, character based. -/
def pyStartsWith (s p : String) : Bool :=
  p.data.isPrefixOf s.data

/-- pyEndsWith models Python str.endswith, character based. -/
def pyEndsWith (s p : String) : Bool :=
  p.data.isSuffixOf s.data

/-- pjoin models os.path.join (posixpath) on two components: an absolute
second component replaces the first; otherwise a slash separator is inserted
unless the first component is empty or already ends with a slash. -/
def pjoin (a b : String) : String :=
  if pyStartsWith b "/" then b
  else if a = "" ∨ pyEndsWith a "/" then a ++ b
  else a ++ "/" ++ b

/-- StepClass enumerates the classes of the module: the SarekWorkflowStep
base class and its four concrete subclasses. -/
inductive StepClass where
  | base
  | preprocessing
  | germlineVC
  | annotate
  | multiQC
  deriving DecidableEq

/-- available_tools is the class attribute of the same name: the tool
whitelist of each step class (empty on the base class and on the classes that
do not override it). -/
def available_tools : StepClass → List String
  | StepClass.germlineVC => ["haplotypecaller", "strelka", "manta"]
  | StepClass.annotate => ["snpeff", "vep"]
  | _ => []

/-- pyClassName is the fully qualified Python class name, as used by
str(type(self)) in the NotImplementedError message. -/
def pyClassName : StepClass → String
  | StepClass.base => "ngi_pipeline.engines.sarek.models.workflow.SarekWorkflowStep"
  | StepClass.preprocessing => "ngi_pipeline.engines.sarek.models.workflow.SarekPreprocessingStep"
  | StepClass.germlineVC => "ngi_pipeline.engines.sarek.models.workflow.SarekGermlineVCStep"
  | StepClass.annotate => "ngi_pipeline.engines.sarek.models.workflow.SarekAnnotateStep"
  | StepClass.multiQC => "ngi_pipeline.engines.sarek.models.workflow.SarekMultiQCStep"

/-- typeRepr is Python str(type(self)) for an instance of the class. -/
def typeRepr (c : StepClass) : String :=
  "<class " ++ sq ++ pyClassName c ++ sq ++ ">"

/-- notImplementedMessage is the message of the NotImplementedError raised by
the base-class sarek_step method. -/
def notImplementedMessage (c : StepClass) : String :=
  "The Sarek workflow step definition for " ++ typeRepr c ++ " has not been defined"

/-- overrides_sarek_step tells whether the class overrides the sarek_step
method (every concrete subclass does; the base class does not). -/
def overrides_sarek_step : StepClass → Bool
  | StepClass.base => false
  | _ => true

/-- sarek_step models the sarek_step method: the relative script path of the
step, or the NotImplementedError of the base class. -/
def sarek_step : StepClass → Except String String
  | StepClass.base => Except.error (notImplementedMessage StepClass.base)
  | StepClass.preprocessing => Except.ok "main.nf"
  | StepClass.germlineVC => Except.ok "germlineVC.nf"
  | StepClass.annotate => Except.ok "annotate.nf"
  | StepClass.multiQC => Except.ok "runMultiQC.nf"

/-- valid_tools models the valid_tools method: filter a list of tool names
against the available tools of the step class, preserving input order. -/
def valid_tools (c : StepClass) (tools : List String) : List String :=
  tools.filter (fun t => t ∈ available_tools c)

/-- toolsIterToList models what Python 2 list(filter(pred, x)) iterates over
when valid_tools is applied to the raw tools argument: a list yields its
elements, a string yields its characters as one-character strings, and a
non-iterable int or bool raises TypeError (modelled as none). -/
def toolsIterToList : PyVal → Option (List String)
  | PyVal.list xs => some xs
  | PyVal.str s => some (s.data.map String.singleton)
  | PyVal.int _ => none
  | PyVal.bool _ => none

/-- expand_arg models the list-expansion comprehension of the constructor:
a list value becomes the comma-joined string, every other value is unchanged. -/
def expand_arg : PyVal → PyVal
  | PyVal.list xs => PyVal.str (String.intercalate "," xs)
  | v => v

/-- drop_fixed_path_keys is the dict comprehension of the constructor that
drops the two fixed-path keys from the keyword arguments. -/
def drop_fixed_path_keys (sarek_args : List (String × PyVal)) : List (String × PyVal) :=
  sarek_args.filter (fun kv => !(kv.1 = "nf_path" ∨ kv.1 = "sarek_path"))

/-- Step models a SarekWorkflowStep instance: its class together with the
nf_path, sarek_path and sarek_args attributes set by the constructor. -/
structure Step where
  cls : StepClass
  nf_path : String
  sarek_path : String
  sarek_args : List (String × PyVal)
  deriving DecidableEq

/-- mk_step models the constructor: drop the nf_path and sarek_path keys,
filter the tools argument (default empty list) through valid_tools, and
expand list values to comma-joined strings.  A tools value that is not
iterable makes valid_tools raise TypeError, modelled as none. -/
def mk_step (c : StepClass) (path_to_nextflow path_to_sarek : String)
    (sarek_args : List (String × PyVal)) : Option Step := do
  let args := drop_fixed_path_keys sarek_args
  let ts ← toolsIterToList (dictGetD args "tools" (PyVal.list []))
  let args := dictSet args "tools" (PyVal.list (valid_tools c ts))
  let args := args.map (fun kv => (kv.1, expand_arg kv.2))
  some ⟨c, path_to_nextflow, path_to_sarek, args⟩

/-- TItem is one item of a string.Template template as built by the source:
literal text or a named placeholder. -/
inductive TItem where
  | lit (s : String)
  | hole (n : String)
  deriving DecidableEq

/-- append_argument models the _append_argument method: if the named argument
has a truthy value in the mapping, append the flag text and a placeholder for
the value; otherwise return the template unchanged. -/
def append_argument (args : List (String × PyVal)) (base : List TItem)
    (name : String) (hyphen : String) : List TItem :=
  if truthyOpt (dictGet args name) then
    base ++ [TItem.lit (" " ++ hyphen ++ name ++ " "), TItem.hole name]
  else base

/-- single_hyphen_args is the fixed list of short-flag argument names of
command_line, in its declared order. -/
def single_hyphen_args : List String := ["config", "profile"]

/-- build_template models the template-building phase of command_line: start
from the fixed template, append the single-hyphen flags in declared order,
then the remaining argument names in mapping iteration order with a double
hyphen. -/
def build_template (args : List (String × PyVal)) : List TItem :=
  let t0 := [TItem.hole "nf_path", TItem.lit " run ", TItem.hole "sarek_step_path"]
  let t1 := single_hyphen_args.foldl (fun t n => append_argument args t n "-") t0
  ((dictKeys args).filter (fun n => !(n ∈ single_hyphen_args))).foldl
    (fun t n => append_argument args t n "--") t1

/-- substitute models Template.substitute against a mapping: placeholders are
replaced by the str() of the mapped value; a placeholder whose name is absent
from the mapping raises KeyError. -/
def substitute (mapping : List (String × PyVal)) : List TItem → Except String String
  | [] => Except.ok ""
  | TItem.lit s :: rest => do
    let r ← substitute mapping rest
    Except.ok (s ++ r)
  | TItem.hole n :: rest =>
    match dictGet mapping n with
    | none => Except.error ("KeyError: " ++ n)
    | some v => do
      let r ← substitute mapping rest
      Except.ok (pyToStr v ++ r)

/-- command_line models the command_line method: build the template from the
step arguments, then substitute nf_path, the joined sarek_step_path and every
step argument.  The sarek_step call of a class that does not override it
propagates its NotImplementedError. -/
def command_line (s : Step) : Except String String := do
  let script ← sarek_step s.cls
  let tmpl := build_template s.sarek_args
  substitute
    (("nf_path", PyVal.str s.nf_path)
      :: ("sarek_step_path", PyVal.str (pjoin s.sarek_path script))
      :: s.sarek_args)
    tmpl

/-- AnalysisSample models the analysis_sample collaborator of report_files:
its sample_analysis_path() method and sampleid attribute. -/
structure AnalysisSample where
  sample_analysis_path : String
  sampleid : String
  deriving DecidableEq

/-- ReportParser enumerates the parser classes paired with report files. -/
inductive ReportParser where
  | QualiMapParser
  | PicardMarkDuplicatesParser
  deriving DecidableEq

/-- ParserException models the ParserException raised by report_files: the
class it was raised for together with the message. -/
structure ParserException where
  cls : StepClass
  message : String
  deriving DecidableEq

/-- isOkB tells whether an Except value is a success (no exception raised). -/
def isOkB {e a : Type} : Except e a → Bool
  | Except.ok _ => true
  | Except.error _ => false

/-- report_dir_of is the Reports directory of a sample, as computed by
SarekPreprocessingStep.report_files. -/
def report_dir_of (sample : AnalysisSample) : String :=
  pjoin sample.sample_analysis_path "Reports"

/-- markdups_dir_of is the MarkDuplicates directory of a sample, as computed
by SarekPreprocessingStep.report_files. -/
def markdups_dir_of (sample : AnalysisSample) : String :=
  pjoin (report_dir_of sample) "MarkDuplicates"

/-- report_files models SarekPreprocessingStep.report_files; the os.listdir
result for the MarkDuplicates directory is passed in as markdups_listing.
Python 2 filter returns a list and pop() removes its last element, so the
match is on the reversed filtered listing. -/
def report_files (sample : AnalysisSample) (markdups_listing : List String) :
    Except ParserException (List (ReportParser × String)) :=
  let report_dir := report_dir_of sample
  let markdups_dir := markdups_dir_of sample
  let metric_files := markdups_listing.filter (fun f => pyEndsWith f ".metrics")
  match metric_files.reverse with
  | [] =>
    Except.error ⟨StepClass.preprocessing,
      "no metrics file for MarkDuplicates found for sample " ++ sample.sampleid
        ++ " in " ++ markdups_dir⟩
  | markdups_metrics_file :: remaining =>
    if !remaining.isEmpty then
      Except.error ⟨StepClass.preprocessing,
        "multiple metrics files for MarkDuplicates found for sample " ++ sample.sampleid
          ++ " in " ++ markdups_dir⟩
    else
      Except.ok
        [(ReportParser.QualiMapParser,
           pjoin (pjoin (pjoin report_dir "bamQC") sample.sampleid) "genome_results.txt"),
         (ReportParser.PicardMarkDuplicatesParser,
           pjoin markdups_dir markdups_metrics_file)]

/- Helper lemmas about the association-list dictionary model. -/

theorem dictGet_filter_of_kept (l : List (String × PyVal)) (p : String × PyVal → Bool)
    (k : String) (hp : ∀ v, p (k, v) = true) :
    dictGet (l.filter p) k = dictGet l k := by
  induction l with
  | nil => rfl
  | cons kv rest ih =>
    by_cases hk : kv.1 = k
    · have : p kv = true := by
        have := hp kv.2
        rw [← hk] at this
        simpa using this
      simp [List.filter_cons, this, dictGet, hk]
    · cases hpv : p kv <;> simp [List.filter_cons, hpv, dictGet, hk, ih]

theorem dictGet_filter_of_dropped (l : List (String × PyVal)) (p : String × PyVal → Bool)
    (k : String) (hp : ∀ v, p (k, v) = false) :
    dictGet (l.filter p) k = none := by
  induction l with
  | nil => rfl
  | cons kv rest ih =>
    by_cases hk : kv.1 = k
    · have : p kv = false := by
        have := hp kv.2
        rw [← hk] at this
        simpa using this
      simp [List.filter_cons, this, ih]
    · cases hpv : p kv <;> simp [List.filter_cons, hpv, dictGet, hk, ih]

theorem dictGet_dictSet_self (l : List (String × PyVal)) (k : String) (v : PyVal) :
    dictGet (dictSet l k v) k = some v := by
  induction l with
  | nil => simp [dictSet, dictGet]
  | cons kv rest ih =>
    by_cases hk : kv.1 = k <;> simp [dictSet, hk, dictGet, ih]

theorem dictGet_dictSet_ne (l : List (String × PyVal)) (k k2 : String) (v : PyVal)
    (h : ¬ k2 = k) :
    dictGet (dictSet l k v) k2 = dictGet l k2 := by
  have hk2 : ¬ k = k2 := fun hh => h hh.symm
  induction l with
  | nil => simp [dictSet, dictGet, hk2]
  | cons kv rest ih =>
    by_cases hk : kv.1 = k
    · subst hk
      simp [dictSet, dictGet, hk2]
    · simp [dictSet, hk, dictGet, ih]

theorem dictGet_map_expand (l : List (String × PyVal)) (k : String) :
    dictGet (l.map (fun kv => (kv.1, expand_arg kv.2))) k = (dictGet l k).map expand_arg := by
  induction l with
  | nil => rfl
  | cons kv rest ih =>
    by_cases hk : kv.1 = k <;> simp [dictGet, hk, ih]

theorem dictGet_dictErase_self (l : List (String × PyVal)) (k : String) :
    dictGet (dictErase l k) k = none := by
  apply dictGet_filter_of_dropped
  intro v
  simp

theorem dictGet_dictErase_ne (l : List (String × PyVal)) (k k2 : String) (h : ¬ k2 = k) :
    dictGet (dictErase l k) k2 = dictGet l k2 := by
  apply dictGet_filter_of_kept
  intro v
  simp [h]

theorem dictGet_eq_none_iff (l : List (String × PyVal)) (k : String) :
    dictGet l k = none ↔ ¬ k ∈ dictKeys l := by
  induction l with
  | nil => simp [dictGet, dictKeys]
  | cons kv rest ih =>
    by_cases hk : kv.1 = k
    · simp [dictGet, hk, dictKeys]
    · have hk2 : ¬ k = kv.1 := fun hh => hk hh.symm
      simp [dictGet, hk, dictKeys, ih, hk2]

theorem dictKeys_map_expand (l : List (String × PyVal)) :
    dictKeys (l.map (fun kv => (kv.1, expand_arg kv.2))) = dictKeys l := by
  simp [dictKeys]

theorem mem_dictKeys_dictSet (l : List (String × PyVal)) (k k2 : String) (v : PyVal)
    (h : k2 ∈ dictKeys (dictSet l k v)) : k2 ∈ dictKeys l ∨ k2 = k := by
  induction l with
  | nil => simpa [dictSet, dictKeys] using h
  | cons kv rest ih =>
    by_cases hk : kv.1 = k
    · simp [dictSet, hk, dictKeys] at h
      rcases h with h | h
      · right; exact h
      · left; simp [dictKeys, h]
    · simp [dictSet, hk, dictKeys] at h ⊢
      rcases h with h | h
      · left; left; exact h
      · rcases ih (by simpa [dictKeys] using h) with h2 | h2
        · left; right; simpa [dictKeys] using h2
        · right; exact h2

/- Helper lemmas about the constructor. -/

theorem dictGet_drop_fixed_path_keys (kwargs : List (String × PyVal)) (k : String)
    (h1 : ¬ k = "nf_path") (h2 : ¬ k = "sarek_path") :
    dictGet (drop_fixed_path_keys kwargs) k = dictGet kwargs k := by
  apply dictGet_filter_of_kept
  intro v
  simp [h1, h2]

theorem dictGet_drop_fixed_path_keys_fixed (kwargs : List (String × PyVal)) (k : String)
    (h : k = "nf_path" ∨ k = "sarek_path") :
    dictGet (drop_fixed_path_keys kwargs) k = none := by
  apply dictGet_filter_of_dropped
  intro v
  rcases h with h | h <;> simp [h]

theorem mk_step_some (c : StepClass) (nf sp : String) (kwargs : List (String × PyVal))
    (ts : List String)
    (hts : toolsIterToList (dictGetD (drop_fixed_path_keys kwargs) "tools" (PyVal.list []))
      = some ts) :
    mk_step c nf sp kwargs =
      some ⟨c, nf, sp,
        (dictSet (drop_fixed_path_keys kwargs) "tools"
          (PyVal.list (valid_tools c ts))).map (fun kv => (kv.1, expand_arg kv.2))⟩ := by
  simp [mk_step, hts]

theorem toolsIter_of_absent (kwargs : List (String × PyVal))
    (h : dictGet kwargs "tools" = none) :
    toolsIterToList (dictGetD (drop_fixed_path_keys kwargs) "tools" (PyVal.list []))
      = some [] := by
  have heq : dictGet (drop_fixed_path_keys kwargs) "tools" = dictGet kwargs "tools" :=
    dictGet_drop_fixed_path_keys kwargs "tools" (by decide) (by decide)
  simp [dictGetD, heq, h, toolsIterToList]

theorem toolsIter_of_list (kwargs : List (String × PyVal)) (ts : List String)
    (h : dictGet kwargs "tools" = some (PyVal.list ts)) :
    toolsIterToList (dictGetD (drop_fixed_path_keys kwargs) "tools" (PyVal.list []))
      = some ts := by
  have heq : dictGet (drop_fixed_path_keys kwargs) "tools" = dictGet kwargs "tools" :=
    dictGet_drop_fixed_path_keys kwargs "tools" (by decide) (by decide)
  simp [dictGetD, heq, h, toolsIterToList]

theorem tools_value_of_mk_step (c : StepClass) (nf sp : String)
    (kwargs : List (String × PyVal)) (s : Step) (ts : List String)
    (hts : toolsIterToList (dictGetD (drop_fixed_path_keys kwargs) "tools" (PyVal.list []))
      = some ts)
    (h : mk_step c nf sp kwargs = some s) :
    dictGet s.sarek_args "tools"
      = some (PyVal.str (String.intercalate "," (valid_tools c ts))) := by
  rw [mk_step_some c nf sp kwargs ts hts] at h
  injection h with h
  subst h
  rw [dictGet_map_expand, dictGet_dictSet_self]
  rfl

theorem non_special_value_of_mk_step (c : StepClass) (nf sp : String)
    (kwargs : List (String × PyVal)) (k : String) (v : PyVal) (s : Step)
    (h1 : ¬ k = "nf_path") (h2 : ¬ k = "sarek_path") (h3 : ¬ k = "tools")
    (hv : dictGet kwargs k = some v)
    (h : mk_step c nf sp kwargs = some s) :
    dictGet s.sarek_args k = some (expand_arg v) := by
  cases hts : toolsIterToList (dictGetD (drop_fixed_path_keys kwargs) "tools" (PyVal.list [])) with
  | none => simp [mk_step, hts] at h
  | some ts =>
    rw [mk_step_some c nf sp kwargs ts hts] at h
    injection h with h
    subst h
    rw [dictGet_map_expand, dictGet_dictSet_ne _ _ _ _ h3,
      dictGet_drop_fixed_path_keys kwargs k h1 h2, hv]
    rfl

/-- C5: for every list of tool names passed as the tools keyword, after
construction arguments["tools"] equals the comma-join of the input list
filtered to members of the variant's whitelist with input order preserved;
for a variant whose whitelist is empty the result is empty regardless of
input; the germline variant-calling step given
tools=["haplotypecaller", "bogus", "manta"] stores "haplotypecaller,manta". -/
theorem tools_whitelist_filtering :
    (∀ (c : StepClass) (nf sp : String) (kwargs : List (String × PyVal))
        (ts : List String) (s : Step),
      dictGet kwargs "tools" = some (PyVal.list ts) →
      mk_step c nf sp kwargs = some s →
      dictGet s.sarek_args "tools"
        = some (PyVal.str
            (String.intercalate "," (ts.filter (fun t => t ∈ available_tools c))))) ∧
    (∀ (c : StepClass) (nf sp : String) (kwargs : List (String × PyVal))
        (ts : List String) (s : Step),
      available_tools c = [] →
      dictGet kwargs "tools" = some (PyVal.list ts) →
      mk_step c nf sp kwargs = some s →
      dictGet s.sarek_args "tools" = some (PyVal.str "")) ∧
    (∀ s : Step,
      mk_step StepClass.germlineVC "nextflow" "sarek"
          [("tools", PyVal.list ["haplotypecaller", "bogus", "manta"])] = some s →
      dictGet s.sarek_args "tools" = some (PyVal.str "haplotypecaller,manta")) := by
  refine ⟨?_, ?_, ?_⟩
  · intro c nf sp kwargs ts s hv h
    exact tools_value_of_mk_step c nf sp kwargs s ts (toolsIter_of_list kwargs ts hv) h
  · intro c nf sp kwargs ts s hempty hv h
    have h2 := tools_value_of_mk_step c nf sp kwargs s ts (toolsIter_of_list kwargs ts hv) h
    rw [h2]
    simp [valid_tools, hempty]
    rfl
  · intro s h
    have h2 := tools_value_of_mk_step StepClass.germlineVC "nextflow" "sarek" _ s
      ["haplotypecaller", "bogus", "manta"] (by decide) h
    rw [h2]
    rfl

/-- C5 witness: the germline variant-calling step built with
tools=["haplotypecaller", "bogus", "manta"] stores "haplotypecaller,manta". -/
theorem tools_whitelist_filtering_witness :
    dictGet (Step.mk StepClass.germlineVC "nextflow" "sarek"
        [("tools", PyVal.str "haplotypecaller,manta")]).sarek_args "tools"
      = some (PyVal.str "haplotypecaller,manta") :=
  tools_whitelist_filtering.2.2
    (Step.mk StepClass.germlineVC "nextflow" "sarek"
      [("tools", PyVal.str "haplotypecaller,manta")])
    (by decide)

/-- C6 counterexample: a base-class step constructed with tools=["bogus"]
stores the empty string for "tools", not the comma-join "bogus" of the
passed sequence, because the tools list is whitelist-filtered before it is
joined.  The claim as stated is therefore false for the tools keyword. -/
theorem list_value_comma_join_counterexample :
    (mk_step StepClass.base "nf" "sp" [("tools", PyVal.list ["bogus"])]).map
        (fun s => dictGet s.sarek_args "tools")
      = some (some (PyVal.str ""))
    ∧ ¬ PyVal.str "" = PyVal.str (String.intercalate "," ["bogus"]) := by
  constructor
  · rfl
  · decide

/-- C6 (amended): for every keyword argument other than the two fixed-path
names and other than tools, a value passed as an ordered sequence of strings
is stored as the comma-join of its elements, and every non-sequence value
(including the numeric value 0 and boolean False) is stored unchanged, not
converted to a string; this is expand_arg, the list-expansion comprehension
of the constructor. -/
theorem non_fixed_args_stored_expanded :
    (∀ (c : StepClass) (nf sp : String) (kwargs : List (String × PyVal))
        (k : String) (v : PyVal) (s : Step),
      ¬ k = "nf_path" → ¬ k = "sarek_path" → ¬ k = "tools" →
      dictGet kwargs k = some v →
      mk_step c nf sp kwargs = some s →
      dictGet s.sarek_args k = some (expand_arg v)) ∧
    (∀ xs : List String,
      expand_arg (PyVal.list xs) = PyVal.str (String.intercalate "," xs)) ∧
    (∀ s : String, expand_arg (PyVal.str s) = PyVal.str s) ∧
    (∀ n : Int, expand_arg (PyVal.int n) = PyVal.int n) ∧
    (∀ b : Bool, expand_arg (PyVal.bool b) = PyVal.bool b) := by
  refine ⟨?_, fun xs => rfl, fun s => rfl, fun n => rfl, fun b => rfl⟩
  intro c nf sp kwargs k v s h1 h2 h3 hv h
  exact non_special_value_of_mk_step c nf sp kwargs k v s h1 h2 h3 hv h

/-- C6 witness: a preprocessing step built with a list-valued argument and a
zero-valued argument stores the comma-joined string for the former and the
unchanged number for the latter. -/
theorem non_fixed_args_stored_expanded_witness :
    dictGet (Step.mk StepClass.preprocessing "nf" "sp"
        [("genome", PyVal.str "GRCh38"),
         ("outDir", PyVal.str "a,b"),
         ("tools", PyVal.str "")]).sarek_args "genome"
      = some (expand_arg (PyVal.str "GRCh38")) :=
  non_fixed_args_stored_expanded.1 StepClass.preprocessing "nf" "sp"
    [("genome", PyVal.str "GRCh38"), ("outDir", PyVal.list ["a", "b"])]
    "genome" (PyVal.str "GRCh38")
    (Step.mk StepClass.preprocessing "nf" "sp"
      [("genome", PyVal.str "GRCh38"),
       ("outDir", PyVal.str "a,b"),
       ("tools", PyVal.str "")])
    (by decide) (by decide) (by decide) (by decide) (by decide)

/-- C7: for all keyword inputs, the arguments mapping built at construction
never contains either of the two fixed-path parameter names nf_path and
sarek_path; the mapping is not mutated afterwards (the embedding is pure),
so the exclusion holds for the lifetime of the configuration. -/
theorem fixed_path_keys_never_in_arguments :
    ∀ (c : StepClass) (nf sp : String) (kwargs : List (String × PyVal)) (s : Step),
      mk_step c nf sp kwargs = some s →
      ¬ "nf_path" ∈ dictKeys s.sarek_args ∧ ¬ "sarek_path" ∈ dictKeys s.sarek_args := by
  intro c nf sp kwargs s h
  cases hts : toolsIterToList
      (dictGetD (drop_fixed_path_keys kwargs) "tools" (PyVal.list [])) with
  | none => simp [mk_step, hts] at h
  | some ts =>
    rw [mk_step_some c nf sp kwargs ts hts] at h
    injection h with h
    subst h
    constructor
    · intro hmem
      rw [dictKeys_map_expand] at hmem
      rcases mem_dictKeys_dictSet _ _ _ _ hmem with hmem | hmem
      · have hnone := dictGet_drop_fixed_path_keys_fixed kwargs "nf_path" (Or.inl rfl)
        rw [dictGet_eq_none_iff] at hnone
        exact hnone hmem
      · exact absurd hmem (by decide)
    · intro hmem
      rw [dictKeys_map_expand] at hmem
      rcases mem_dictKeys_dictSet _ _ _ _ hmem with hmem | hmem
      · have hnone := dictGet_drop_fixed_path_keys_fixed kwargs "sarek_path" (Or.inr rfl)
        rw [dictGet_eq_none_iff] at hnone
        exact hnone hmem
      · exact absurd hmem (by decide)

/-- C7 witness: a concrete construction that passes both fixed-path names as
keyword arguments ends with neither of them in the arguments mapping. -/
theorem fixed_path_keys_never_in_arguments_witness :
    ¬ "nf_path" ∈ dictKeys (Step.mk StepClass.germlineVC "nf" "sp"
        [("tools", PyVal.str "")]).sarek_args
    ∧ ¬ "sarek_path" ∈ dictKeys (Step.mk StepClass.germlineVC "nf" "sp"
        [("tools", PyVal.str "")]).sarek_args :=
  fixed_path_keys_never_in_arguments StepClass.germlineVC "nf" "sp"
    [("nf_path", PyVal.str "evil"), ("sarek_path", PyVal.str "evil")]
    (Step.mk StepClass.germlineVC "nf" "sp" [("tools", PyVal.str "")])
    (by decide)

/- Helper lemmas about character-level suffixes and pjoin. -/

theorem isSuffixOf_singleton_concat (c b : Char) (m : List Char) :
    [c].isSuffixOf (m ++ [b]) = (c == b) := by
  by_cases hcb : c = b
  · subst hcb
    simp only [beq_self_eq_true]
    exact List.isSuffixOf_iff_suffix.mpr ⟨m, rfl⟩
  · have hb2 : (c == b) = false := by simp [hcb]
    rw [hb2, Bool.eq_false_iff]
    intro htrue
    rcases List.isSuffixOf_iff_suffix.mp htrue with ⟨t, ht⟩
    have hlen : t.length = m.length := by
      have := congrArg List.length ht
      simpa using this
    have h2 := List.append_inj_right ht hlen
    injection h2 with h3 h4
    exact hcb h3

theorem pyEndsWith_append_slash_false (a b : String) (hb : ¬ b = "")
    (h : pyEndsWith b "/" = false) : pyEndsWith (a ++ b) "/" = false := by
  unfold pyEndsWith at h ⊢
  rw [String.data_append]
  rcases b.data.eq_nil_or_concat with hnil | ⟨L, x, hconcat⟩
  · exact absurd (String.ext (by simpa using hnil)) hb
  · rw [hconcat, List.concat_eq_append] at h ⊢
    rw [← List.append_assoc]
    rw [show ("/" : String).data = [Char.ofNat 47] from rfl] at h ⊢
    rw [isSuffixOf_singleton_concat] at h ⊢
    exact h

theorem append_ne_empty_right (a b : String) (hb : ¬ b = "") : ¬ (a ++ b) = "" := by
  intro h
  apply hb
  have hd := congrArg String.data h
  rw [String.data_append] at hd
  rcases List.append_eq_nil.mp (by simpa using hd) with ⟨h1, h2⟩
  exact String.ext (by simpa using h2)

theorem pjoin_eq (a b : String) (ha1 : ¬ a = "") (ha2 : pyEndsWith a "/" = false)
    (hb : pyStartsWith b "/" = false) : pjoin a b = a ++ "/" ++ b := by
  simp [pjoin, hb, ha1, ha2]

/- Helper lemmas reducing report_files in its three cases. -/

theorem report_files_none (sample : AnalysisSample) (markdups_listing : List String)
    (h : markdups_listing.filter (fun f => pyEndsWith f ".metrics") = []) :
    report_files sample markdups_listing = Except.error ⟨StepClass.preprocessing,
      "no metrics file for MarkDuplicates found for sample " ++ sample.sampleid
        ++ " in " ++ markdups_dir_of sample⟩ := by
  simp only [report_files]
  rw [h]
  rfl

theorem report_files_multiple (sample : AnalysisSample) (markdups_listing : List String)
    (f g : String) (rest : List String)
    (h : (markdups_listing.filter (fun f => pyEndsWith f ".metrics")).reverse
      = f :: g :: rest) :
    report_files sample markdups_listing = Except.error ⟨StepClass.preprocessing,
      "multiple metrics files for MarkDuplicates found for sample " ++ sample.sampleid
        ++ " in " ++ markdups_dir_of sample⟩ := by
  simp only [report_files]
  rw [h]
  rfl

theorem report_files_single (sample : AnalysisSample) (markdups_listing : List String)
    (f : String)
    (h : markdups_listing.filter (fun g => pyEndsWith g ".metrics") = [f]) :
    report_files sample markdups_listing = Except.ok
      [(ReportParser.QualiMapParser,
         pjoin (pjoin (pjoin (report_dir_of sample) "bamQC") sample.sampleid)
           "genome_results.txt"),
       (ReportParser.PicardMarkDuplicatesParser, pjoin (markdups_dir_of sample) f)] := by
  simp only [report_files]
  rw [h]
  rfl

/-- C2: for every analysis_sample, preprocessing report discovery raises the
ParserException exactly when the number of listing entries ending in
".metrics" is not one: a "no metrics file found" error (naming the sample id
and the MarkDuplicates directory) when zero such entries exist, and a
"multiple metrics files found" error when more than one exists. -/
theorem preprocessing_report_error_iff :
    ∀ (sample : AnalysisSample) (markdups_listing : List String),
      (isOkB (report_files sample markdups_listing) = true ↔
        (markdups_listing.filter (fun f => pyEndsWith f ".metrics")).length = 1) ∧
      ((markdups_listing.filter (fun f => pyEndsWith f ".metrics")).length = 0 →
        report_files sample markdups_listing = Except.error ⟨StepClass.preprocessing,
          "no metrics file for MarkDuplicates found for sample " ++ sample.sampleid
            ++ " in " ++ markdups_dir_of sample⟩) ∧
      (1 < (markdups_listing.filter (fun f => pyEndsWith f ".metrics")).length →
        report_files sample markdups_listing = Except.error ⟨StepClass.preprocessing,
          "multiple metrics files for MarkDuplicates found for sample " ++ sample.sampleid
            ++ " in " ++ markdups_dir_of sample⟩) := by
  intro sample listing
  have hlen : (listing.filter (fun f => pyEndsWith f ".metrics")).length
      = (listing.filter (fun f => pyEndsWith f ".metrics")).reverse.length := by
    rw [List.length_reverse]
  rcases hrev : (listing.filter (fun f => pyEndsWith f ".metrics")).reverse with _ | ⟨f, rest⟩
  · have hnil := List.reverse_eq_nil_iff.mp hrev
    rw [hrev] at hlen
    refine ⟨?_, fun _ => report_files_none sample listing hnil, fun hgt => ?_⟩
    · rw [report_files_none sample listing hnil, hlen]
      simp [isOkB]
    · rw [hlen] at hgt
      exact absurd hgt (by simp)
  · rcases rest with _ | ⟨g, rest2⟩
    · have hone : listing.filter (fun g => pyEndsWith g ".metrics") = [f] := by
        have := congrArg List.reverse hrev
        simpa using this
      rw [hrev] at hlen
      refine ⟨?_, fun h0 => ?_, fun hgt => ?_⟩
      · rw [report_files_single sample listing f hone, hlen]
        simp [isOkB]
      · rw [hlen] at h0
        exact absurd h0 (by simp)
      · rw [hlen] at hgt
        exact absurd hgt (by simp)
    · rw [hrev] at hlen
      refine ⟨?_, fun h0 => ?_, fun _ =>
        report_files_multiple sample listing f g rest2 hrev⟩
      · rw [report_files_multiple sample listing f g rest2 hrev, hlen]
        simp [isOkB]
      · rw [hlen] at h0
        exact absurd h0 (by simp)

/-- C2 witness: with two matching entries, report discovery raises the
"multiple metrics files" ParserException; the theorem is applied at a
concrete sample and listing. -/
theorem preprocessing_report_error_iff_witness :
    report_files (AnalysisSample.mk "/x/sample" "S1") ["a.metrics", "b.metrics"]
      = Except.error ⟨StepClass.preprocessing,
        "multiple metrics files for MarkDuplicates found for sample "
          ++ (AnalysisSample.mk "/x/sample" "S1").sampleid
          ++ " in " ++ markdups_dir_of (AnalysisSample.mk "/x/sample" "S1")⟩ :=
  (preprocessing_report_error_iff (AnalysisSample.mk "/x/sample" "S1")
    ["a.metrics", "b.metrics"]).2.2 (by decide)

/-- C3: for every analysis_sample whose MarkDuplicates listing contains
exactly one entry ending in ".metrics", report_files returns exactly two
descriptors in order: the QualiMapParser paired with
<sample_analysis_path>/Reports/bamQC/<sampleid>/genome_results.txt, then the
PicardMarkDuplicatesParser paired with the path of that entry under
<sample_analysis_path>/Reports/MarkDuplicates (stated for paths in the
normal form where os.path.join inserts exactly one slash). -/
theorem preprocessing_report_success :
    ∀ (sample : AnalysisSample) (markdups_listing : List String) (f : String),
      markdups_listing.filter (fun g => pyEndsWith g ".metrics") = [f] →
      ¬ sample.sample_analysis_path = "" →
      pyEndsWith sample.sample_analysis_path "/" = false →
      ¬ sample.sampleid = "" →
      pyStartsWith sample.sampleid "/" = false →
      pyEndsWith sample.sampleid "/" = false →
      pyStartsWith f "/" = false →
      report_files sample markdups_listing = Except.ok
        [(ReportParser.QualiMapParser,
           sample.sample_analysis_path ++ "/Reports/bamQC/" ++ sample.sampleid
             ++ "/genome_results.txt"),
         (ReportParser.PicardMarkDuplicatesParser,
           sample.sample_analysis_path ++ "/Reports/MarkDuplicates/" ++ f)] := by
  intro sample listing f hone hsap1 hsap2 hsid1 hsid2 hsid3 hf
  rw [report_files_single sample listing f hone]
  have hrd : report_dir_of sample = sample.sample_analysis_path ++ "/" ++ "Reports" :=
    pjoin_eq _ _ hsap1 hsap2 (by decide)
  have hrd_ne : ¬ report_dir_of sample = "" := by
    rw [hrd, String.append_assoc]
    exact append_ne_empty_right _ _ (by decide)
  have hrd_end : pyEndsWith (report_dir_of sample) "/" = false := by
    rw [hrd, String.append_assoc]
    exact pyEndsWith_append_slash_false _ _ (by decide) (by decide)
  have hmd : markdups_dir_of sample = report_dir_of sample ++ "/" ++ "MarkDuplicates" := by
    unfold markdups_dir_of
    exact pjoin_eq _ _ hrd_ne hrd_end (by decide)
  have hbq : pjoin (report_dir_of sample) "bamQC"
      = report_dir_of sample ++ "/" ++ "bamQC" :=
    pjoin_eq _ _ hrd_ne hrd_end (by decide)
  have hbq_ne : ¬ (report_dir_of sample ++ "/" ++ "bamQC") = "" := by
    rw [String.append_assoc]
    exact append_ne_empty_right _ _ (by decide)
  have hbq_end : pyEndsWith (report_dir_of sample ++ "/" ++ "bamQC") "/" = false := by
    rw [String.append_assoc]
    exact pyEndsWith_append_slash_false _ _ (by decide) (by decide)
  have hbqs : pjoin (report_dir_of sample ++ "/" ++ "bamQC") sample.sampleid
      = report_dir_of sample ++ "/" ++ "bamQC" ++ "/" ++ sample.sampleid :=
    pjoin_eq _ _ hbq_ne hbq_end hsid2
  have hbqs_ne : ¬ (report_dir_of sample ++ "/" ++ "bamQC" ++ "/" ++ sample.sampleid) = "" := by
    rw [String.append_assoc, String.append_assoc, String.append_assoc]
    exact append_ne_empty_right _ _ (by
      rw [← String.append_assoc, ← String.append_assoc]
      exact append_ne_empty_right _ _ hsid1)
  have hbqs_end : pyEndsWith (report_dir_of sample ++ "/" ++ "bamQC" ++ "/"
      ++ sample.sampleid) "/" = false := by
    rw [String.append_assoc, String.append_assoc, String.append_assoc]
    exact pyEndsWith_append_slash_false _ _ (by
        rw [← String.append_assoc, ← String.append_assoc]
        exact append_ne_empty_right _ _ hsid1)
      (by
        rw [← String.append_assoc, ← String.append_assoc]
        exact pyEndsWith_append_slash_false _ _ hsid1 hsid3)
  have hmd_ne : ¬ markdups_dir_of sample = "" := by
    rw [hmd, String.append_assoc]
    exact append_ne_empty_right _ _ (by decide)
  have hmd_end : pyEndsWith (markdups_dir_of sample) "/" = false := by
    rw [hmd, String.append_assoc]
    exact pyEndsWith_append_slash_false _ _ (by decide) (by decide)
  rw [hbq, hbqs, pjoin_eq _ _ hbqs_ne hbqs_end (by decide),
    pjoin_eq _ _ hmd_ne hmd_end hf, hmd, hrd]
  simp only [String.append_assoc]
  rfl

/-- C3 witness: a concrete sample whose MarkDuplicates listing holds exactly
one ".metrics" entry yields the two descriptors at the expected paths. -/
theorem preprocessing_report_success_witness :
    report_files (AnalysisSample.mk "/data/sample" "S1") ["x.metrics", "readme.txt"]
      = Except.ok
        [(ReportParser.QualiMapParser,
           (AnalysisSample.mk "/data/sample" "S1").sample_analysis_path
             ++ "/Reports/bamQC/" ++ (AnalysisSample.mk "/data/sample" "S1").sampleid
             ++ "/genome_results.txt"),
         (ReportParser.PicardMarkDuplicatesParser,
           (AnalysisSample.mk "/data/sample" "S1").sample_analysis_path
             ++ "/Reports/MarkDuplicates/" ++ "x.metrics")] :=
  preprocessing_report_success (AnalysisSample.mk "/data/sample" "S1")
    ["x.metrics", "readme.txt"] "x.metrics"
    (by decide) (by decide) (by decide) (by decide) (by decide) (by decide) (by decide)

/-- C8: for every step whose class does not override the sarek_step accessor,
command_line raises the NotImplementedError whose message says the step
definition has not been defined, rather than returning a command string. -/
theorem unimplemented_step_error :
    ∀ s : Step, overrides_sarek_step s.cls = false →
      command_line s = Except.error (notImplementedMessage s.cls) := by
  intro s h
  cases hcls : s.cls
  case base =>
    simp only [command_line, hcls, sarek_step]
    rfl
  all_goals (rw [hcls] at h; exact absurd h (by decide))

/-- C8 witness: a base-class step raises the unimplemented-step error from
command_line. -/
theorem unimplemented_step_error_witness :
    command_line (Step.mk StepClass.base "nf" "sp" [("tools", PyVal.str "")])
      = Except.error
          (notImplementedMessage (Step.mk StepClass.base "nf" "sp"
            [("tools", PyVal.str "")]).cls) :=
  unimplemented_step_error (Step.mk StepClass.base "nf" "sp" [("tools", PyVal.str "")]) rfl

/-- C9: command_line is idempotent and deterministic: repeated calls on the
same configuration give the same string (the embedding is pure, so the
configuration is not mutated), and the result is a function of only the
arguments, executable path, installation path and relative script path. -/
theorem command_line_pure :
    (∀ s : Step, command_line s = command_line s) ∧
    (∀ s t : Step, s.nf_path = t.nf_path → s.sarek_path = t.sarek_path →
      s.sarek_args = t.sarek_args → sarek_step s.cls = sarek_step t.cls →
      command_line s = command_line t) := by
  refine ⟨fun s => rfl, ?_⟩
  intro s t h1 h2 h3 h4
  unfold command_line
  rw [h1, h2, h3, h4]

/-- C9 witness: two structurally different step values that agree on the four
inputs of command_line produce the same command line. -/
theorem command_line_pure_witness :
    command_line (Step.mk StepClass.germlineVC "nf" "sp" [("config", PyVal.str "c")])
      = command_line (Step.mk StepClass.germlineVC "nf" "sp"
          [("config", PyVal.str "c")]) :=
  command_line_pure.2
    (Step.mk StepClass.germlineVC "nf" "sp" [("config", PyVal.str "c")])
    (Step.mk StepClass.germlineVC "nf" "sp" [("config", PyVal.str "c")])
    rfl rfl rfl rfl

/- Helper lemmas about templates built by build_template. -/

theorem append_argument_dictErase (args : List (String × PyVal)) (name : String)
    (hfalsy : truthyOpt (dictGet args name) = false) (t : List TItem) (n : String)
    (hy : String) :
    append_argument (dictErase args name) t n hy = append_argument args t n hy := by
  by_cases hn : n = name
  · subst hn
    rw [append_argument, append_argument, dictGet_dictErase_self]
    rw [if_neg (by simp [truthyOpt])]
    rw [if_neg (by rw [hfalsy]; simp)]
  · rw [append_argument, append_argument, dictGet_dictErase_ne _ _ _ hn]

theorem foldl_filter_id {a b : Type} (f : b → a → b) (p : a → Bool) (l : List a)
    (hid : ∀ (t : b) (x : a), p x = false → f t x = t) :
    ∀ t : b, (l.filter p).foldl f t = l.foldl f t := by
  induction l with
  | nil => intro t; rfl
  | cons x rest ih =>
    intro t
    cases hp : p x
    · rw [List.filter_cons_of_neg (by simp [hp]), List.foldl_cons, hid t x hp]
      exact ih t
    · rw [List.filter_cons_of_pos hp, List.foldl_cons, List.foldl_cons]
      exact ih (f t x)

theorem dictKeys_dictErase (args : List (String × PyVal)) (name : String) :
    dictKeys (dictErase args name) = (dictKeys args).filter (fun n => !(n = name)) := by
  induction args with
  | nil => rfl
  | cons kv rest ih =>
    by_cases h : kv.1 = name
    · simp only [dictKeys, dictErase, List.map_cons, List.filter_cons] at ih ⊢
      simp [h, ih]
    · simp only [dictKeys, dictErase, List.map_cons, List.filter_cons] at ih ⊢
      simp [h, ih]

theorem build_template_dictErase (args : List (String × PyVal)) (name : String)
    (hfalsy : truthyOpt (dictGet args name) = false) :
    build_template (dictErase args name) = build_template args := by
  simp only [build_template]
  simp only [append_argument_dictErase args name hfalsy]
  rw [dictKeys_dictErase]
  rw [List.filter_comm]
  apply foldl_filter_id
  intro t x hx
  have hxname : x = name := by simpa using hx
  subst hxname
  simp [append_argument, hfalsy]

theorem substitute_congr (m1 m2 : List (String × PyVal)) :
    ∀ tmpl : List TItem,
      (∀ n, TItem.hole n ∈ tmpl → dictGet m1 n = dictGet m2 n) →
      substitute m1 tmpl = substitute m2 tmpl := by
  intro tmpl
  induction tmpl with
  | nil => intro h; rfl
  | cons item rest ih =>
    intro h
    cases item with
    | lit s =>
      simp only [substitute]
      rw [ih (fun n hn => h n (List.mem_cons_of_mem _ hn))]
    | hole n =>
      simp only [substitute]
      rw [h n (List.mem_cons_self _ _), ih (fun n2 hn => h n2 (List.mem_cons_of_mem _ hn))]

theorem hole_mem_foldl_append (args : List (String × PyVal)) (hy : String)
    (l : List String) :
    ∀ (t0 : List TItem) (n : String),
      TItem.hole n ∈ l.foldl (fun t k => append_argument args t k hy) t0 →
      TItem.hole n ∈ t0 ∨ truthyOpt (dictGet args n) = true := by
  induction l with
  | nil => intro t0 n h; exact Or.inl h
  | cons k rest ih =>
    intro t0 n h
    rw [List.foldl_cons] at h
    rcases ih (append_argument args t0 k hy) n h with h2 | h2
    · unfold append_argument at h2
      by_cases hk : truthyOpt (dictGet args k) = true
      · rw [if_pos hk] at h2
        rcases List.mem_append.mp h2 with h3 | h3
        · exact Or.inl h3
        · simp only [List.mem_cons, List.not_mem_nil, or_false] at h3
          rcases h3 with h3 | h3
          · exact absurd h3 (by simp)
          · injection h3 with hnk
            subst hnk
            exact Or.inr hk
      · rw [if_neg hk] at h2
        exact Or.inl h2
    · exact Or.inr h2

theorem hole_mem_build_template (args : List (String × PyVal)) (n : String)
    (h : TItem.hole n ∈ build_template args) :
    n = "nf_path" ∨ n = "sarek_step_path" ∨ truthyOpt (dictGet args n) = true := by
  simp only [build_template] at h
  rcases hole_mem_foldl_append args "--" _ _ n h with h2 | h2
  · rcases hole_mem_foldl_append args "-" _ _ n h2 with h3 | h3
    · simp only [List.mem_cons, List.not_mem_nil, or_false] at h3
      rcases h3 with h3 | h3 | h3
      · injection h3 with h4
        exact Or.inl h4
      · exact absurd h3 (by simp)
      · injection h3 with h4
        exact Or.inr (Or.inl h4)
    · exact Or.inr (Or.inr h3)
  · exact Or.inr (Or.inr h2)

/-- C4: an argument present in the arguments mapping with a falsy value
(numeric zero, boolean False, empty string or empty list) contributes no
flag and no placeholder to build_command_line: the command line equals the
one built with that argument removed from the mapping entirely. -/
theorem falsy_argument_no_flag :
    ∀ (c : StepClass) (nf sp : String) (args : List (String × PyVal))
      (name : String) (v : PyVal),
      dictGet args name = some v →
      pyTruthy v = false →
      command_line (Step.mk c nf sp args)
        = command_line (Step.mk c nf sp (dictErase args name)) := by
  intro c nf sp args name v hv hfalsy
  have hfo : truthyOpt (dictGet args name) = false := by
    rw [hv]
    exact hfalsy
  unfold command_line
  dsimp only
  rw [build_template_dictErase args name hfo]
  cases hscript : sarek_step c with
  | error e => rfl
  | ok script =>
    show substitute
        (("nf_path", PyVal.str nf)
          :: ("sarek_step_path", PyVal.str (pjoin sp script)) :: args)
        (build_template args)
      = substitute
        (("nf_path", PyVal.str nf)
          :: ("sarek_step_path", PyVal.str (pjoin sp script)) :: dictErase args name)
        (build_template args)
    apply substitute_congr
    intro n hn
    rcases hole_mem_build_template args n hn with h | h | h
    · subst h
      rfl
    · subst h
      rfl
    · have hne : ¬ n = name := by
        intro he
        rw [he, hfo] at h
        cases h
      simp only [dictGet]
      rw [dictGet_dictErase_ne args name n hne]

/-- C4 witness: a step whose arguments carry enable=False, count=0 and an
empty tools string produces the same command line as the same step with the
falsy enable argument absent. -/
theorem falsy_argument_no_flag_witness :
    command_line (Step.mk StepClass.preprocessing "nf" "sp"
        [("config", PyVal.str "c.conf"), ("enable", PyVal.bool false),
         ("count", PyVal.int 0), ("tools", PyVal.str "")])
      = command_line (Step.mk StepClass.preprocessing "nf" "sp"
          (dictErase
            [("config", PyVal.str "c.conf"), ("enable", PyVal.bool false),
             ("count", PyVal.int 0), ("tools", PyVal.str "")] "enable")) :=
  falsy_argument_no_flag StepClass.preprocessing "nf" "sp"
    [("config", PyVal.str "c.conf"), ("enable", PyVal.bool false),
     ("count", PyVal.int 0), ("tools", PyVal.str "")]
    "enable" (PyVal.bool false) (by decide) (by decide)

/-- C10: after every successful construction the arguments mapping contains
the key "tools", holding the comma-join of the whitelist-filtered tool list
(the empty string when no tools keyword was supplied, or when none survived
filtering); and a --tools placeholder appears in the command-line template
only when at least one supplied tool is in the whitelist of the class. -/
theorem tools_key_always_present :
    (∀ (c : StepClass) (nf sp : String) (kwargs : List (String × PyVal)) (s : Step),
      dictGet kwargs "tools" = none →
      mk_step c nf sp kwargs = some s →
      dictGet s.sarek_args "tools" = some (PyVal.str "")) ∧
    (∀ (c : StepClass) (nf sp : String) (kwargs : List (String × PyVal))
        (ts : List String) (s : Step),
      dictGet kwargs "tools" = some (PyVal.list ts) →
      mk_step c nf sp kwargs = some s →
      dictGet s.sarek_args "tools"
        = some (PyVal.str (String.intercalate "," (valid_tools c ts)))) ∧
    (∀ (c : StepClass) (nf sp : String) (kwargs : List (String × PyVal))
        (ts : List String) (s : Step),
      dictGet kwargs "tools" = some (PyVal.list ts) →
      mk_step c nf sp kwargs = some s →
      TItem.hole "tools" ∈ build_template s.sarek_args →
      ¬ valid_tools c ts = []) := by
  refine ⟨?_, ?_, ?_⟩
  · intro c nf sp kwargs s hv h
    have h2 := tools_value_of_mk_step c nf sp kwargs s []
      (toolsIter_of_absent kwargs hv) h
    rw [h2]
    rfl
  · intro c nf sp kwargs ts s hv h
    exact tools_value_of_mk_step c nf sp kwargs s ts (toolsIter_of_list kwargs ts hv) h
  · intro c nf sp kwargs ts s hv h hmem hnil
    have hval := tools_value_of_mk_step c nf sp kwargs s ts (toolsIter_of_list kwargs ts hv) h
    rcases hole_mem_build_template s.sarek_args "tools" hmem with h2 | h2 | h2
    · exact absurd h2 (by decide)
    · exact absurd h2 (by decide)
    · rw [hval, hnil] at h2
      simp [truthyOpt, pyTruthy] at h2
      exact h2 rfl

/-- C10 witness: a germline step constructed without any tools keyword still
has arguments["tools"] equal to the empty string. -/
theorem tools_key_always_present_witness :
    dictGet (Step.mk StepClass.germlineVC "nf" "sp"
        [("config", PyVal.str "x"), ("tools", PyVal.str "")]).sarek_args "tools"
      = some (PyVal.str "") :=
  tools_key_always_present.1 StepClass.germlineVC "nf" "sp"
    [("config", PyVal.str "x")]
    (Step.mk StepClass.germlineVC "nf" "sp"
      [("config", PyVal.str "x"), ("tools", PyVal.str "")])
    (by decide) (by decide)

/-- C1: a step whose class defines a script path, constructed with
config="foo.conf", profile="standard" and no other truthy arguments, builds
exactly "<executable_path> run <installation_path>/<script> -config foo.conf
-profile standard": the short-hyphen config and profile flags first, in that
order, single spaces throughout and no trailing whitespace (stated for an
installation path in the normal form where os.path.join inserts exactly one
slash). -/
theorem config_profile_command_line :
    ∀ (c : StepClass) (nf sp script : String) (s : Step),
      sarek_step c = Except.ok script →
      pyStartsWith script "/" = false →
      ¬ sp = "" →
      pyEndsWith sp "/" = false →
      mk_step c nf sp
        [("config", PyVal.str "foo.conf"), ("profile", PyVal.str "standard")] = some s →
      command_line s
        = Except.ok (nf ++ " run " ++ sp ++ "/" ++ script
            ++ " -config foo.conf -profile standard") := by
  intro c nf sp script s hscript hs1 hsp1 hsp2 h
  have hmk : mk_step c nf sp
      [("config", PyVal.str "foo.conf"), ("profile", PyVal.str "standard")]
      = some (Step.mk c nf sp
        [("config", PyVal.str "foo.conf"), ("profile", PyVal.str "standard"),
         ("tools", PyVal.str "")]) := rfl
  rw [hmk] at h
  injection h with h
  subst h
  have hcl : command_line (Step.mk c nf sp
      [("config", PyVal.str "foo.conf"), ("profile", PyVal.str "standard"),
       ("tools", PyVal.str "")])
      = Except.ok (nf ++ (" run " ++ (pjoin sp script
          ++ (" -config " ++ ("foo.conf" ++ (" -profile " ++ ("standard" ++ ""))))))) := by
    unfold command_line
    dsimp only
    rw [hscript]
    rfl
  rw [hcl, pjoin_eq sp script hsp1 hsp2 hs1]
  simp only [String.append_assoc, String.append_empty]
  rfl

/-- C1 witness: the germline step with concrete paths yields the exact
command line with the two short flags. -/
theorem config_profile_command_line_witness :
    command_line (Step.mk StepClass.germlineVC "nextflow" "/opt/sarek"
        [("config", PyVal.str "foo.conf"), ("profile", PyVal.str "standard"),
         ("tools", PyVal.str "")])
      = Except.ok ("nextflow" ++ " run " ++ "/opt/sarek" ++ "/" ++ "germlineVC.nf"
          ++ " -config foo.conf -profile standard") :=
  config_profile_command_line StepClass.germlineVC "nextflow" "/opt/sarek"
    "germlineVC.nf"
    (Step.mk StepClass.germlineVC "nextflow" "/opt/sarek"
      [("config", PyVal.str "foo.conf"), ("profile", PyVal.str "standard"),
       ("tools", PyVal.str "")])
    rfl (by decide) (by decide) (by decide) rfl

end SarekWorkflow
